import Mathlib

/-!
Verification of the device-discovery and configuration-reconciliation engine of
the `midea_dehumidifier_lan` Home Assistant integration.

The definitions below are a shallow embedding of
`custom_components/midea_dehumidifier_lan/appliance_discovery.py`,
`custom_components/midea_dehumidifier_lan/appliance_coordinator.py`,
`custom_components/midea_dehumidifier_lan/util.py` and
`custom_components/midea_dehumidifier_lan/const.py`.

Modelling conventions:
* Python strings are Lean `String`s; the empty string `""` models a falsy
  address (Python `None` or `""`): the discovery code only ever tests
  addresses for truthiness or compares them for equality.
* Python dicts holding device configurations are modelled as the total
  structure `DeviceConf`; `_async_run_discovery` starts by `setdefault`-ing
  the `discovery` and `ip_address` keys, which is the identity here because
  the structure is total.
* The external `midea_beautiful` library's `AirConditionerAppliance.supported`
  and `DehumidifierAppliance.supported` type checks are abstracted as the
  `ApplianceChecks` parameter; everything else is translated from the
  repository's own code.
* Side effects (`persistent_notification.async_create`,
  `async_update_entry`, `async_reload`) are made explicit: notifications are
  accumulated in a list, and the entry-update / reload decisions are returned
  as booleans.
-/

namespace MideaLan

/-! ## Constants (`const.py`) -/

def DISCOVERY_IGNORE : String := "IGNORE"
def DISCOVERY_LAN : String := "LAN"
def DISCOVERY_CLOUD : String := "CLOUD"
def DISCOVERY_WAIT : String := "WAIT"
def DEFAULT_DISCOVERY_MODE : String := DISCOVERY_LAN
def UNKNOWN_IP : String := "0.0.0.0"
def LOCAL_BROADCAST : String := "255.255.255.255"
def DISCOVERY_BATCH_SIZE : Nat := 64
/-- Constant of `const.py`: `DEFAULT_TTL: Final = 5` (commented "5 minutes"); note that
this constant is not referenced by any other module of the repository. -/
def DEFAULT_TTL : Nat := 5

/-- External constant `midea_beautiful.midea.APPLIANCE_TYPE_AIRCON`. -/
def APPLIANCE_TYPE_AIRCON : String := "0xac"
/-- External constant `midea_beautiful.midea.APPLIANCE_TYPE_DEHUMIDIFIER`. -/
def APPLIANCE_TYPE_DEHUMIDIFIER : String := "0xa1"

/-! ## Data model -/

/-- A device descriptor returned by a LAN scan (`midea_beautiful.lan.LanDevice`,
restricted to the attributes the discovery code reads). -/
structure LanDevice where
  serial_number : String
  address : String
  model : String
  mac : String
  token : String
  key : String
  version : Nat
  appliance_id : String
  type : String
deriving Repr, DecidableEq

/-- One persisted device configuration entry
(`hub.config[CONF_DEVICES][i]`), with the keys the discovery code reads or
writes.  `ttl` models the optional `CONF_TTL` key. -/
structure DeviceConf where
  discovery : String
  api_version : Nat
  dev_id : String
  ip_address : String
  name : String
  token_key : String
  token : String
  type : String
  unique_id : String
  ttl : Option Nat
deriving Repr, DecidableEq

/-- The slice of an `ApplianceUpdateCoordinator` the discovery helper touches:
`coordinator.appliance.serial_number`, the mutable
`coordinator.appliance.address`, `coordinator.available` and the
`coordinator.device` configuration dict. -/
structure Coordinator where
  serial_number : String
  address : String
  available : Bool
  device : DeviceConf
deriving Repr, DecidableEq

/-- A user-visible persistent notification, identified the way the code
derives `notification_id` (event kind plus serial number; the possible-LAN
notification is additionally recorded here with the address that triggered
it, which the code stores in `notifed_addresses`). -/
inductive Notification where
  | unknownDevice (serial : String)
  | waitDiscovery (serial : String)
  | nonLanDiscovery (serial : String) (address : String)
deriving Repr, DecidableEq

/-- The state the reconciliation engine reads and writes: the persisted
device list `hub.config[CONF_DEVICES]`, the live coordinators, the
configuration's `CONF_INCLUDE` list, and the helper's
`notifed_addresses` dedup set (modelled as a list). -/
structure DiscoveryState where
  devConfs : List DeviceConf
  coordinators : List Coordinator
  includeList : List String
  notifedAddresses : List String
deriving Repr, DecidableEq

/-! ## `util.py` -/

/-- Model of `util.address_ok`: the configuration entries always carry an ip string,
so the `is not None` part of the check is `≠ ""` here. -/
def address_ok (address : String) : Bool :=
  address != "" && address != UNKNOWN_IP

/-- The two external type predicates of `util._SUPPORTABLE_APPLIANCES`
(`AirConditionerAppliance.supported` and `DehumidifierAppliance.supported`
from `midea_beautiful`), abstracted as parameters. -/
structure ApplianceChecks where
  acSupported : String → Bool
  dhSupported : String → Bool

/-- Model of `util._SUPPORTABLE_APPLIANCES`: insertion-ordered dict from appliance
type id to the external support check. -/
def supportableAppliances (ck : ApplianceChecks) : List (String × (String → Bool)) :=
  [(APPLIANCE_TYPE_AIRCON, ck.acSupported),
   (APPLIANCE_TYPE_DEHUMIDIFIER, ck.dhSupported)]

/-- Model of `util.supported_appliance`: returns true on the first entry of
`_SUPPORTABLE_APPLIANCES` whose type id is in `conf.get(CONF_INCLUDE, [])`
and whose check accepts the appliance type. -/
def supported_appliance (ck : ApplianceChecks) (includeList : List String)
    (applianceType : String) : Bool :=
  (supportableAppliances ck).any fun p => includeList.contains p.1 && p.2 applianceType

/-! ## `appliance_discovery.py`: classifying scanned devices -/

/-- The `next((coord for coord in self.hub.coordinators if
coord.appliance.serial_number == device.serial_number), None)` lookup. -/
def findCoordinator (coords : List Coordinator) (serial : String) : Option Coordinator :=
  coords.find? fun c => c.serial_number == serial

/-- An entry of `self.changed_devices` (`_ChangedDevice`): the scanned device
together with the identity of the coordinator it was matched to (the first
live coordinator carrying that serial number). -/
structure ChangedDevice where
  device : LanDevice
  coordinatorSerial : String
deriving Repr, DecidableEq

/-- Model of `_iterate_devices`: splits a scan result into `new_devices` (no live
coordinator tracks the serial and the appliance type is supported) and
`changed_devices` (a live coordinator tracks the serial and the scanned
address differs from its cached address); devices without an address are
skipped. -/
def iterate_devices (ck : ApplianceChecks) (coords : List Coordinator)
    (includeList : List String) :
    List LanDevice → List LanDevice × List ChangedDevice
  | [] => ([], [])
  | device :: rest =>
    let r := iterate_devices ck coords includeList rest
    if device.address = "" then r
    else
      match findCoordinator coords device.serial_number with
      | some coord =>
        if device.address ≠ "" ∧ device.address ≠ coord.address then
          (r.1, ⟨device, coord.serial_number⟩ :: r.2)
        else r
      | none =>
        if supported_appliance ck includeList device.type then
          (device :: r.1, r.2)
        else r

/-! ## `appliance_discovery.py`: admitting new devices -/

/-- Result of notification bookkeeping: the `notifed_addresses` set and the
notifications created so far. -/
structure NotifyState where
  notifed : List String
  notifs : List Notification
deriving Repr, DecidableEq

/-- Model of `_possible_lan_notification`: creates the "can be configured for local
network access" notification unless the address was already notified. -/
def possible_lan_notification (ns : NotifyState) (deviceSerial address : String) :
    NotifyState :=
  if address ∈ ns.notifed then ns
  else
    { notifed := ns.notifed ++ [address]
      notifs := ns.notifs ++ [.nonLanDiscovery deviceSerial address] }

/-- Result of `_admitted_known_device` on one configuration entry. -/
structure KnownAdmission where
  known : DeviceConf
  needReload : Bool
  ns : NotifyState
deriving Repr, DecidableEq

/-- Model of `_admitted_known_device`: if the entry's serial matches, a `wait`-mode
entry is promoted to `lan` (overwriting version/id/address/token/key/type
from the device, creating the wait-discovery notification, and signalling a
reload); a non-`wait`, non-`lan` entry with a present device address gets the
possible-LAN notification. -/
def admitted_known_device (known : DeviceConf) (new : LanDevice) (ns : NotifyState) :
    KnownAdmission :=
  if known.unique_id = new.serial_number then
    if known.discovery = DISCOVERY_WAIT then
      { known :=
          { known with
            discovery := DISCOVERY_LAN
            api_version := new.version
            dev_id := new.appliance_id
            ip_address := new.address
            token_key := new.key
            token := new.token
            type := new.type
            unique_id := new.serial_number }
        needReload := true
        ns := { ns with notifs := ns.notifs ++ [.waitDiscovery new.serial_number] } }
    else if new.address ≠ "" ∧ known.discovery ≠ DISCOVERY_LAN then
      { known := known, needReload := false
        ns := possible_lan_notification ns new.serial_number new.address }
    else
      { known := known, needReload := false, ns := ns }
  else
    { known := known, needReload := false, ns := ns }

/-- The name `_admit_not_known_device` builds:
`f"{new.model} {new.mac[-4] if new.mac else new.serial_number}"`.
`new.mac[-4]` is the single character four positions from the end of the MAC
string (for real 12-character MAC strings; shorter non-empty strings would
raise in Python and are not modelled further, since no claim depends on the
name). -/
def newDeviceName (new : LanDevice) : String :=
  new.model ++ " " ++
    (if new.mac ≠ "" then String.singleton (new.mac.toList.getD (new.mac.length - 4) ' ')
     else new.serial_number)

/-- Model of `_admit_not_known_device`: synthesizes the configuration entry for a
previously unknown device (discovery mode `IGNORE`) and creates the
unknown-device notification. -/
def admit_not_known_device (new : LanDevice) (notifs : List Notification) :
    DeviceConf × List Notification :=
  ({ discovery := DISCOVERY_IGNORE
     api_version := new.version
     dev_id := new.appliance_id
     ip_address := new.address
     name := newDeviceName new
     token_key := new.key
     token := new.token
     type := new.type
     unique_id := new.serial_number
     ttl := none },
   notifs ++ [.unknownDevice new.serial_number])

/-- Accumulated state of the `_admit_new` loop. -/
structure AdmitPass where
  devConfs : List DeviceConf
  added : List DeviceConf
  needReload : Bool
  ns : NotifyState
deriving Repr, DecidableEq

/-- The loop body of `_admit_new`.  Note the control flow of the source:

```
for new in self.new_devices:
    for known in dev_confs:
        if self._admitted_known_device(known, new):
            need_reload = True
        break
    else:
        added_devices.append(self._admit_not_known_device(new))
        need_reload = True
```

the `break` is unconditional, so the inner loop examines only the first
element of `dev_confs`, and the `else` branch (admitting an unknown device)
runs exactly when `dev_confs` is empty.  Newly added devices are collected
in `added_devices` and appended to `dev_confs` only after the loop. -/
def admitNewGo (st : AdmitPass) : List LanDevice → AdmitPass
  | [] => st
  | new :: rest =>
    match st.devConfs with
    | [] =>
      let (conf, notifs1) := admit_not_known_device new st.ns.notifs
      admitNewGo
        { devConfs := []
          added := st.added ++ [conf]
          needReload := true
          ns := { st.ns with notifs := notifs1 } } rest
    | k :: tail =>
      let r := admitted_known_device k new st.ns
      admitNewGo
        { devConfs := r.known :: tail
          added := st.added
          needReload := st.needReload || r.needReload
          ns := r.ns } rest

/-- Model of `_admit_new`: runs the loop above over `self.new_devices` and then
extends `dev_confs` with the added devices; returns the updated device list,
the `need_reload` flag and the notification state. -/
def admit_new (newDevices : List LanDevice) (devConfs : List DeviceConf)
    (ns : NotifyState) : List DeviceConf × Bool × NotifyState :=
  let r := admitNewGo { devConfs := devConfs, added := [], needReload := false, ns := ns }
    newDevices
  (r.devConfs ++ r.added, r.needReload, r.ns)

/-! ## `appliance_discovery.py`: merging changed devices -/

/-- The inner loop of `_merge_with_configuration`: walks `dev_confs` looking
for the first entry whose `unique_id` equals the coordinator's serial
number; if found, overwrites that entry's ip address (the dict is mutated in
place) and returns the updated entry. -/
def mergeKnown (serial address : String) :
    List DeviceConf → List DeviceConf × Option DeviceConf
  | [] => ([], none)
  | k :: rest =>
    if k.unique_id = serial then
      ({ k with ip_address := address } :: rest, some { k with ip_address := address })
    else
      let r := mergeKnown serial address rest
      (k :: r.1, r.2)

/-- Model of `coordinator.appliance.address = device.address`: updates the cached
address of the first coordinator with the given serial number. -/
def setCoordinatorAddress (coords : List Coordinator) (serial address : String) :
    List Coordinator :=
  match coords with
  | [] => []
  | c :: rest =>
    if c.serial_number = serial then { c with address := address } :: rest
    else c :: setCoordinatorAddress rest serial address

/-- Accumulated state of the `_merge_with_configuration` loop. -/
structure MergePass where
  devConfs : List DeviceConf
  coordinators : List Coordinator
  ns : NotifyState
  updatedConf : Bool
deriving Repr, DecidableEq

/-- The outer loop of `_merge_with_configuration`: for each changed device,
finds the first matching configuration entry by the coordinator's serial
number; on a match updates the coordinator's cached address and the entry's
stored ip address, marks the configuration updated, and (when the device
address is present and the entry is not in `lan` mode) creates the
possible-LAN notification. -/
def mergeGo (st : MergePass) : List ChangedDevice → MergePass
  | [] => st
  | chg :: rest =>
    let m := mergeKnown chg.coordinatorSerial chg.device.address st.devConfs
    match m.2 with
    | some known =>
      let coords1 := setCoordinatorAddress st.coordinators chg.coordinatorSerial
        chg.device.address
      let ns1 :=
        if chg.device.address ≠ "" ∧ known.discovery ≠ DISCOVERY_LAN then
          possible_lan_notification st.ns chg.coordinatorSerial chg.device.address
        else st.ns
      mergeGo { devConfs := m.1, coordinators := coords1, ns := ns1, updatedConf := true }
        rest
    | none =>
      mergeGo { st with devConfs := m.1 } rest

/-! ## `appliance_discovery.py`: one full merge (`_async_run_discovery`) -/

/-- Everything `_async_run_discovery` produces: the updated state, the
`need_reload` and `devices_changed` flags, whether
`async_update_entry` was called (`devices_changed or need_reload`), whether a
reload task was created (`need_reload`), and the notifications created
during the run. -/
structure RunResult where
  st : DiscoveryState
  needReload : Bool
  devicesChanged : Bool
  entryUpdated : Bool
  reloadScheduled : Bool
  notifs : List Notification
deriving Repr, DecidableEq

/-- Model of `_async_run_discovery`: the `setdefault` pass (identity on the total
structure), `_iterate_devices`, `_admit_new`, `_merge_with_configuration`,
then the entry-update and reload decisions. -/
def run_discovery (ck : ApplianceChecks) (st : DiscoveryState)
    (devices : List LanDevice) : RunResult :=
  let it := iterate_devices ck st.coordinators st.includeList devices
  let ad := admit_new it.1 st.devConfs { notifed := st.notifedAddresses, notifs := [] }
  let mg := mergeGo
    { devConfs := ad.1, coordinators := st.coordinators
      ns := ad.2.2, updatedConf := false } it.2
  { st :=
      { st with
        devConfs := mg.devConfs
        coordinators := mg.coordinators
        notifedAddresses := mg.ns.notifed }
    needReload := ad.2.1
    devicesChanged := mg.updatedConf
    entryUpdated := mg.updatedConf || ad.2.1
    reloadScheduled := ad.2.1
    notifs := mg.ns.notifs }

/-! ## `appliance_discovery.py`: discovery scheduling (`_setup`, `_async_discover`) -/

/-- Model of `_add_if_discoverable`: appends the device's ip address to
`conf_addresses` when the device is not in `lan` mode and the address is
known.  The Python function has no `return` statement, so its value is
`None`; the second component records the truthiness of that returned value
(always `False`), which is what `_setup` branches on. -/
def add_if_discoverable (confAddresses : List String) (device : DeviceConf) :
    List String × Bool :=
  ( if device.discovery ≠ DISCOVERY_LAN ∧ address_ok device.ip_address
    then confAddresses ++ [device.ip_address]
    else confAddresses,
    false )

/-- The address-related state `_setup` leaves behind: `conf_addresses`,
`broadcast_addresses`, and whether the cyclic batch iterator over
`_address_generator()` was installed (as opposed to
`empty_address_iterator()`). -/
structure AddressState where
  confAddresses : List String
  broadcastAddresses : List String
  iteratorInstalled : Bool
deriving Repr, DecidableEq

/-- Model of one `if _add_if_discoverable(self.conf_addresses, device):
has_discoverable = True` step of `_setup`, threading
`(conf_addresses, has_discoverable)`. -/
def setup_step (acc : List String × Bool) (d : DeviceConf) : List String × Bool :=
  let r := add_if_discoverable acc.1 d
  (r.1, if r.2 then true else acc.2)

/-- Model of `_setup`: collects `conf_addresses` from the configured devices (via
`_add_if_discoverable`), from unavailable coordinators' devices, and from
`CONF_BROADCAST_ADDRESS`; computes `broadcast_addresses` as the local
broadcast plus each conf address's directed broadcast (the
`ipaddress.IPv4Network(...).broadcast_address` computation of the Python
standard library is the `netBroadcast` parameter); installs the cyclic batch
iterator only when `has_discoverable` is truthy and `conf_addresses` is
non-empty. -/
def discovery_setup (netBroadcast : String → String) (devConfs : List DeviceConf)
    (coords : List Coordinator) (confBroadcastAddress : List String) : AddressState :=
  let s1 := devConfs.foldl setup_step ([], false)
  let s2 := (coords.filter fun c => !c.available).foldl
    (fun acc c => setup_step acc c.device) s1
  let confAddresses := s2.1 ++
    confBroadcastAddress.filter (fun item => item ≠ "" ∧ item ≠ LOCAL_BROADCAST)
  { confAddresses := confAddresses
    broadcastAddresses := LOCAL_BROADCAST :: confAddresses.map netBroadcast
    iteratorInstalled := s2.2 && !confAddresses.isEmpty }

/-- The address list `_async_discover` assembles for one tick: the broadcast
addresses, plus the iterator's next batch when one was installed
(`nextBatch` stands for `next(self.address_iterator, None)` of the installed
generator), falling back to the host's interface broadcast addresses when
the assembled list is empty. -/
def tick_addresses (st : AddressState) (nextBatch : Option (List String))
    (ifaceBroadcast : List String) : List String :=
  let addresses := st.broadcastAddresses ++
    (match (if st.iteratorInstalled then nextBatch else none) with
     | some batch => batch
     | none => [])
  if addresses.isEmpty then ifaceBroadcast else addresses

/-! ## `appliance_coordinator.py`: refresh failure handling -/

/-- The coordinator attributes `_async_appliance_refresh` reads and writes
(`ApplianceUpdateCoordinator.__init__`).  Time values are the seconds of the
monotonic clock. -/
structure CoordinatorRefreshState where
  available : Bool
  waitForUpdate : Bool
  updatingPending : Bool
  hasFailure : Bool
  firstFailureTime : Nat
  timeToLeave : Nat
deriving Repr, DecidableEq

/-- The field initialisation of `ApplianceUpdateCoordinator.__init__`:
`updating = {}`, `wait_for_update = False`,
`time_to_leave = device.get(CONF_TTL, 100)` (seconds), `has_failure = False`,
`first_failure_time = 0`. -/
def initCoordinatorState (device : DeviceConf) (available : Bool) :
    CoordinatorRefreshState :=
  { available := available
    waitForUpdate := false
    updatingPending := false
    hasFailure := false
    firstFailureTime := 0
    timeToLeave := device.ttl.getD 100 }

/-- Outcome of the blocking I/O inside the `try` block of
`_async_appliance_refresh` (the `appliance.apply` / `appliance.refresh`
calls): either everything succeeds or a `MideaError` is raised. -/
inductive RefreshCall where
  | success
  | mideaError
deriving Repr, DecidableEq

/-- Model of `_async_appliance_refresh` for an available coordinator (`available`
true skips the `_async_try_to_detect` path, which delegates to the hub and
is outside this model): an early return when `wait_for_update` is set;
otherwise on success the failure streak is reset, and on `MideaError` the
first failure of a streak records `first_failure_time := now` and
`UpdateFailed` is raised exactly when `now - first_failure_time >=
time_to_leave`.  The returned boolean is whether `UpdateFailed` was
raised. -/
def appliance_refresh (st : CoordinatorRefreshState) (now : Nat)
    (call : RefreshCall) : CoordinatorRefreshState × Bool :=
  if st.waitForUpdate then (st, false)
  else
    match call with
    | .success =>
      ({ st with updatingPending := false, hasFailure := false, waitForUpdate := false },
       false)
    | .mideaError =>
      let st1 :=
        if st.hasFailure then st
        else { st with hasFailure := true, firstFailureTime := now }
      let raised := st1.timeToLeave ≤ now - st1.firstFailureTime
      ({ st1 with updatingPending := false, waitForUpdate := false }, raised)

/-! ## Helper definitions for the proofs -/

/-- The projection that `mergeKnown` and the admit pass leave unchanged on
every configuration entry: its unique id and discovery mode. -/
def idMode (k : DeviceConf) : String × String := (k.unique_id, k.discovery)

/-- Derived description of the `_admit_new` loop when `dev_confs` is
non-empty: because of the unconditional `break`, each iteration examines
only the head entry and threads it (plus the `need_reload` flag and the
notification state) through the loop. -/
def admitHeadRun (k : DeviceConf) (needReload : Bool) (ns : NotifyState) :
    List LanDevice → DeviceConf × Bool × NotifyState
  | [] => (k, needReload, ns)
  | new :: rest =>
    let r := admitted_known_device k new ns
    admitHeadRun r.known (needReload || r.needReload) r.ns rest

/-- Invariant the first admit pass establishes on the head configuration
entry: any new device matching the head's serial number leaves the head in a
non-`wait` mode, and when the device address is present and the head is not
in `lan` mode, the address has already been notified. -/
def AdmitInv (nds : List LanDevice) (k : DeviceConf) (notifed : List String) : Prop :=
  ∀ d ∈ nds, d.serial_number = k.unique_id →
    k.discovery ≠ DISCOVERY_WAIT ∧
      (d.address ≠ "" → k.discovery ≠ DISCOVERY_LAN → d.address ∈ notifed)

/-- The head-entry admit pass of one full merge run (derived description of
`_admit_new` for a non-empty registry with head `k0`): the resulting head
entry, `need_reload` flag and notification state. -/
def run1Admit (ck : ApplianceChecks) (st : DiscoveryState) (devices : List LanDevice)
    (k0 : DeviceConf) : DeviceConf × Bool × NotifyState :=
  admitHeadRun k0 false { notifed := st.notifedAddresses, notifs := [] }
    (iterate_devices ck st.coordinators st.includeList devices).1

/-- The merge pass of one full run on a registry `k0 :: tail` (derived
description of `_merge_with_configuration` as invoked by
`_async_run_discovery`). -/
def run1Merge (ck : ApplianceChecks) (st : DiscoveryState) (devices : List LanDevice)
    (k0 : DeviceConf) (tail : List DeviceConf) : MergePass :=
  mergeGo
    { devConfs := (run1Admit ck st devices k0).1 :: tail
      coordinators := st.coordinators
      ns := (run1Admit ck st devices k0).2.2
      updatedConf := false }
    (iterate_devices ck st.coordinators st.includeList devices).2

/-! ### Concrete fixtures for witnesses and counterexamples -/

/-- Concrete instantiation of the external type checks: accepts exactly the
appliance-type strings of the two supported categories. -/
def sampleChecks : ApplianceChecks :=
  ⟨fun t => t == APPLIANCE_TYPE_AIRCON, fun t => t == APPLIANCE_TYPE_DEHUMIDIFIER⟩

def confWaitSN1 : DeviceConf :=
  { discovery := DISCOVERY_WAIT, api_version := 3, dev_id := "10", ip_address := UNKNOWN_IP
    name := "Dehumidifier One", token_key := "", token := "", type := "0xa1"
    unique_id := "SN1", ttl := none }

def devSN1 : LanDevice :=
  { serial_number := "SN1", address := "192.0.2.5", model := "Dehumi"
    mac := "c0b2dd123456", token := "TOK", key := "KEY", version := 3
    appliance_id := "11", type := "0xa1" }

def confLanA : DeviceConf :=
  { discovery := DISCOVERY_LAN, api_version := 3, dev_id := "1", ip_address := "192.0.2.1"
    name := "A", token_key := "", token := "", type := "0xa1", unique_id := "SNA"
    ttl := none }

def confWaitB : DeviceConf :=
  { confWaitSN1 with unique_id := "SNB", name := "B" }

def devB : LanDevice :=
  { devSN1 with serial_number := "SNB", address := "192.0.2.9" }

def confCloudSN3 : DeviceConf :=
  { discovery := DISCOVERY_CLOUD, api_version := 3, dev_id := "3", ip_address := UNKNOWN_IP
    name := "Dev3", token_key := "", token := "", type := "0xa1", unique_id := "SN3"
    ttl := none }

def coordSN3 : Coordinator :=
  { serial_number := "SN3", address := UNKNOWN_IP, available := true, device := confCloudSN3 }

def devSN3 : LanDevice :=
  { serial_number := "SN3", address := "192.0.2.88", model := "D", mac := ""
    token := "", key := "", version := 3, appliance_id := "33", type := "0xa1" }

def stC8 : DiscoveryState :=
  { devConfs := [confWaitSN1], coordinators := []
    includeList := [APPLIANCE_TYPE_DEHUMIDIFIER], notifedAddresses := [] }

def stC2 : DiscoveryState :=
  { devConfs := [confLanA, confWaitB], coordinators := []
    includeList := [APPLIANCE_TYPE_DEHUMIDIFIER], notifedAddresses := [] }

def stC3 : DiscoveryState :=
  { devConfs := [confLanA], coordinators := []
    includeList := [APPLIANCE_TYPE_DEHUMIDIFIER], notifedAddresses := [] }

def stEmpty : DiscoveryState :=
  { devConfs := [], coordinators := []
    includeList := [APPLIANCE_TYPE_DEHUMIDIFIER], notifedAddresses := [] }

def stC9 : DiscoveryState :=
  { devConfs := [confCloudSN3], coordinators := [coordSN3]
    includeList := [APPLIANCE_TYPE_DEHUMIDIFIER], notifedAddresses := [] }

def stC6 : CoordinatorRefreshState :=
  { available := true, waitForUpdate := false, updatingPending := false
    hasFailure := true, firstFailureTime := 7, timeToLeave := 100 }

/-! ## Lemmas: coordinator lookup and address update -/

theorem findCoordinator_serial {coords : List Coordinator} {s : String}
    {c : Coordinator} (h : findCoordinator coords s = some c) :
    c.serial_number = s := by
  have hp := List.find?_some h
  simpa using hp

theorem findCoordinator_mem {coords : List Coordinator} {s : String}
    {c : Coordinator} (h : findCoordinator coords s = some c) : c ∈ coords :=
  List.mem_of_find?_eq_some h

theorem findCoordinator_isSome_of_map_serial {coords coords' : List Coordinator}
    (h : coords.map Coordinator.serial_number = coords'.map Coordinator.serial_number)
    (s : String) :
    (findCoordinator coords s).isSome = (findCoordinator coords' s).isSome := by
  induction coords generalizing coords' with
  | nil =>
    cases coords' with
    | nil => rfl
    | cons c' rest' => simp at h
  | cons c rest ih =>
    cases coords' with
    | nil => simp at h
    | cons c' rest' =>
      simp only [List.map_cons, List.cons.injEq] at h
      simp only [findCoordinator, List.find?_cons]
      rw [h.1]
      cases hb : (c'.serial_number == s) with
      | true => simp
      | false => simpa using ih h.2

theorem setCoordinatorAddress_map_serial (coords : List Coordinator)
    (s a : String) :
    (setCoordinatorAddress coords s a).map Coordinator.serial_number
      = coords.map Coordinator.serial_number := by
  induction coords with
  | nil => rfl
  | cons c rest ih =>
    simp only [setCoordinatorAddress]
    split
    · simp
    · simpa using ih

theorem findCoordinator_setCoordinatorAddress_ne {coords : List Coordinator}
    {s s' : String} (a : String) (h : s' ≠ s) :
    findCoordinator (setCoordinatorAddress coords s' a) s = findCoordinator coords s := by
  induction coords with
  | nil => rfl
  | cons c rest ih =>
    simp only [setCoordinatorAddress]
    split
    · rename_i heq
      simp only [findCoordinator, List.find?_cons]
      have hne : (c.serial_number == s) = false := by
        simp only [beq_eq_false_iff_ne, ne_eq]
        rw [heq]
        exact h
      simp [hne]
    · simp only [findCoordinator, List.find?_cons]
      cases hb : (c.serial_number == s) with
      | true => rfl
      | false => simpa [findCoordinator] using ih

theorem findCoordinator_setCoordinatorAddress_self {coords : List Coordinator}
    {s : String} {c : Coordinator} (a : String)
    (h : findCoordinator coords s = some c) :
    findCoordinator (setCoordinatorAddress coords s a) s
      = some { c with address := a } := by
  induction coords with
  | nil => simp [findCoordinator] at h
  | cons c0 rest ih =>
    simp only [findCoordinator, List.find?_cons] at h
    simp only [setCoordinatorAddress]
    split
    · rename_i heq
      have hb : (c0.serial_number == s) = true := by simpa using heq
      rw [hb] at h
      simp only [Option.some.injEq] at h
      subst h
      simp only [findCoordinator, List.find?_cons]
      have : (({ c0 with address := a } : Coordinator).serial_number == s) = true := by
        simpa using heq
      simp [this]
    · rename_i hne
      have hb : (c0.serial_number == s) = false := by
        simpa using hne
      rw [hb] at h
      simp only [findCoordinator, List.find?_cons, hb]
      simpa [findCoordinator] using ih h

/-! ## Lemmas: `mergeKnown` -/

theorem mergeKnown_map_idMode (s a : String) (confs : List DeviceConf) :
    (mergeKnown s a confs).1.map idMode = confs.map idMode := by
  induction confs with
  | nil => rfl
  | cons k rest ih =>
    simp only [mergeKnown]
    split
    · simp [idMode]
    · simpa using ih

theorem mergeKnown_map_unique_id (s a : String) (confs : List DeviceConf) :
    (mergeKnown s a confs).1.map DeviceConf.unique_id = confs.map DeviceConf.unique_id := by
  have h := mergeKnown_map_idMode s a confs
  have h1 := congrArg (List.map Prod.fst) h
  simpa [Function.comp, idMode] using h1

theorem mergeKnown_none_of_not_mem {s : String} (a : String) {confs : List DeviceConf}
    (h : ∀ k ∈ confs, k.unique_id ≠ s) :
    mergeKnown s a confs = (confs, none) := by
  induction confs with
  | nil => rfl
  | cons k rest ih =>
    simp only [mergeKnown]
    rw [if_neg (h k (List.mem_cons_self k rest))]
    rw [ih (fun k' hk' => h k' (List.mem_cons_of_mem k hk'))]

theorem mergeKnown_isSome_of_mem {s : String} (a : String) {confs : List DeviceConf}
    {k : DeviceConf} (hk : k ∈ confs) (hs : k.unique_id = s) :
    (mergeKnown s a confs).2.isSome := by
  induction confs with
  | nil => simp at hk
  | cons k0 rest ih =>
    simp only [mergeKnown]
    split
    · simp
    · rename_i hne
      rcases List.mem_cons.mp hk with h | h
      · subst h; exact absurd hs hne
      · simpa using ih h

/-! ## Lemmas: `mergeGo` -/

theorem mergeGo_map_serial (st : MergePass) (chgs : List ChangedDevice) :
    (mergeGo st chgs).coordinators.map Coordinator.serial_number
      = st.coordinators.map Coordinator.serial_number := by
  induction chgs generalizing st with
  | nil => rfl
  | cons chg rest ih =>
    simp only [mergeGo]
    split
    · rw [ih]
      simp [setCoordinatorAddress_map_serial]
    · rw [ih]

theorem mergeGo_map_idMode (st : MergePass) (chgs : List ChangedDevice) :
    (mergeGo st chgs).devConfs.map idMode = st.devConfs.map idMode := by
  induction chgs generalizing st with
  | nil => rfl
  | cons chg rest ih =>
    simp only [mergeGo]
    split
    · rw [ih]
      simp [mergeKnown_map_idMode]
    · rw [ih]
      simp [mergeKnown_map_idMode]

theorem possible_lan_notification_notifed_subset (ns : NotifyState) (s a : String) :
    ns.notifed ⊆ (possible_lan_notification ns s a).notifed := by
  simp only [possible_lan_notification]
  split
  · exact fun x hx => hx
  · exact fun x hx => List.mem_append_left _ hx

theorem mergeGo_notifed_subset (st : MergePass) (chgs : List ChangedDevice) :
    st.ns.notifed ⊆ (mergeGo st chgs).ns.notifed := by
  induction chgs generalizing st with
  | nil => exact fun x hx => hx
  | cons chg rest ih =>
    simp only [mergeGo]
    split
    · split
      · exact fun x hx =>
          ih _ (possible_lan_notification_notifed_subset st.ns _ _ hx)
      · exact fun x hx => ih _ hx
    · exact fun x hx => ih _ hx

theorem mergeGo_silent {st : MergePass} {chgs : List ChangedDevice}
    (h : ∀ chg ∈ chgs, ∀ k ∈ st.devConfs, k.unique_id ≠ chg.coordinatorSerial) :
    mergeGo st chgs = st := by
  induction chgs with
  | nil => rfl
  | cons chg rest ih =>
    have hnone : mergeKnown chg.coordinatorSerial chg.device.address st.devConfs
        = (st.devConfs, none) :=
      mergeKnown_none_of_not_mem _ (fun k hk => h chg (List.mem_cons_self chg rest) k hk)
    simp only [mergeGo, hnone]
    exact ih (fun chg' hchg' k hk => h chg' (List.mem_cons_of_mem chg hchg') k hk)

theorem mergeGo_findCoordinator_of_not_mem {st : MergePass} {chgs : List ChangedDevice}
    {s : String} (h : ∀ chg ∈ chgs, chg.coordinatorSerial ≠ s) :
    findCoordinator (mergeGo st chgs).coordinators s = findCoordinator st.coordinators s := by
  induction chgs generalizing st with
  | nil => rfl
  | cons chg rest ih =>
    simp only [mergeGo]
    split
    · rw [ih (fun chg' hchg' => h chg' (List.mem_cons_of_mem chg hchg'))]
      exact findCoordinator_setCoordinatorAddress_ne _
        (h chg (List.mem_cons_self chg rest))
    · exact ih (fun chg' hchg' => h chg' (List.mem_cons_of_mem chg hchg'))

theorem mem_unique_id_of_map {confs confs' : List DeviceConf} {s : String}
    (hmap : confs.map idMode = confs'.map idMode)
    (h : ∃ k ∈ confs, k.unique_id = s) : ∃ k ∈ confs', k.unique_id = s := by
  obtain ⟨k, hk, hs⟩ := h
  have hmem : idMode k ∈ confs'.map idMode := by
    rw [← hmap]
    exact List.mem_map_of_mem idMode hk
  obtain ⟨k', hk', heq⟩ := List.mem_map.mp hmem
  refine ⟨k', hk', ?_⟩
  have := congrArg Prod.fst heq
  simpa [idMode, hs] using this

theorem mergeGo_findCoordinator_addr {chgs : List ChangedDevice} {st : MergePass}
    {s a : String}
    (hmem : ∃ chg ∈ chgs, chg.coordinatorSerial = s)
    (haddr : ∀ chg' ∈ chgs, chg'.coordinatorSerial = s → chg'.device.address = a)
    (hconf : ∃ k ∈ st.devConfs, k.unique_id = s)
    (hcoord : (findCoordinator st.coordinators s).isSome) :
    ∃ c', findCoordinator (mergeGo st chgs).coordinators s = some c'
      ∧ c'.address = a := by
  induction chgs generalizing st with
  | nil => simp at hmem
  | cons chg0 rest ih =>
    by_cases hs : chg0.coordinatorSerial = s
    · -- the head entry writes the shared address `a`
      obtain ⟨k, hk, hks⟩ := hconf
      have hsome :
          (mergeKnown chg0.coordinatorSerial chg0.device.address st.devConfs).2.isSome := by
        apply mergeKnown_isSome_of_mem _ hk
        rw [hks, hs]
      obtain ⟨known, hkn⟩ := Option.isSome_iff_exists.mp hsome
      obtain ⟨c0, hc0⟩ := Option.isSome_iff_exists.mp hcoord
      have ha0 : chg0.device.address = a := haddr chg0 (List.mem_cons_self chg0 rest) hs
      simp only [mergeGo, hkn]
      have hconf' : ∃ k' ∈ (mergeKnown chg0.coordinatorSerial chg0.device.address
          st.devConfs).1, k'.unique_id = s :=
        mem_unique_id_of_map (mergeKnown_map_idMode _ _ _).symm ⟨k, hk, hks⟩
      have hfind1 : findCoordinator
          (setCoordinatorAddress st.coordinators chg0.coordinatorSerial
            chg0.device.address) s = some { c0 with address := chg0.device.address } := by
        rw [hs]
        exact findCoordinator_setCoordinatorAddress_self _ hc0
      by_cases hrest : ∃ chg' ∈ rest, chg'.coordinatorSerial = s
      · exact ih hrest
          (fun chg' hchg' h' => haddr chg' (List.mem_cons_of_mem chg0 hchg') h')
          hconf' (by simp [hfind1])
      · push_neg at hrest
        refine ⟨{ c0 with address := chg0.device.address }, ?_, ha0⟩
        rw [mergeGo_findCoordinator_of_not_mem hrest]
        exact hfind1
    · -- the head entry concerns a different serial number
      have hmem' : ∃ chg' ∈ rest, chg'.coordinatorSerial = s := by
        obtain ⟨chg', hchg', hser⟩ := hmem
        rcases List.mem_cons.mp hchg' with h | h
        · subst h; exact absurd hser hs
        · exact ⟨chg', h, hser⟩
      have haddr' : ∀ chg' ∈ rest, chg'.coordinatorSerial = s →
          chg'.device.address = a :=
        fun chg' hchg' h' => haddr chg' (List.mem_cons_of_mem chg0 hchg') h'
      simp only [mergeGo]
      cases hm : (mergeKnown chg0.coordinatorSerial chg0.device.address st.devConfs).2 with
      | some known =>
        have hconf' : ∃ k' ∈ (mergeKnown chg0.coordinatorSerial chg0.device.address
            st.devConfs).1, k'.unique_id = s :=
          mem_unique_id_of_map (mergeKnown_map_idMode _ _ _).symm hconf
        have hcoord' : (findCoordinator
            (setCoordinatorAddress st.coordinators chg0.coordinatorSerial
              chg0.device.address) s).isSome := by
          rw [findCoordinator_setCoordinatorAddress_ne _ hs]
          exact hcoord
        exact ih hmem' haddr' hconf' hcoord'
      | none =>
        have hconf' : ∃ k' ∈ (mergeKnown chg0.coordinatorSerial chg0.device.address
            st.devConfs).1, k'.unique_id = s :=
          mem_unique_id_of_map (mergeKnown_map_idMode _ _ _).symm hconf
        exact ih hmem' haddr' hconf' hcoord

/-! ## Lemmas: `iterate_devices` -/

theorem iterate_new_sublist (ck : ApplianceChecks) (coords : List Coordinator)
    (includeList : List String) (devs : List LanDevice) :
    List.Sublist (iterate_devices ck coords includeList devs).1 devs := by
  induction devs with
  | nil => simp [iterate_devices]
  | cons d rest ih =>
    simp only [iterate_devices]
    by_cases ha : d.address = ""
    · rw [if_pos ha]
      exact List.Sublist.cons _ ih
    · rw [if_neg ha]
      cases hfc : findCoordinator coords d.serial_number with
      | some coord =>
        dsimp only
        by_cases hcond : d.address ≠ "" ∧ d.address ≠ coord.address
        · rw [if_pos hcond]
          exact List.Sublist.cons _ ih
        · rw [if_neg hcond]
          exact List.Sublist.cons _ ih
      | none =>
        dsimp only
        by_cases hsup : supported_appliance ck includeList d.type = true
        · rw [if_pos hsup]
          exact List.Sublist.cons₂ _ ih
        · rw [if_neg hsup]
          exact List.Sublist.cons _ ih

theorem iterate_changed_map_device_sublist (ck : ApplianceChecks)
    (coords : List Coordinator) (includeList : List String) (devs : List LanDevice) :
    List.Sublist ((iterate_devices ck coords includeList devs).2.map
      ChangedDevice.device) devs := by
  induction devs with
  | nil => simp [iterate_devices]
  | cons d rest ih =>
    simp only [iterate_devices]
    by_cases ha : d.address = ""
    · rw [if_pos ha]
      exact List.Sublist.cons _ ih
    · rw [if_neg ha]
      cases hfc : findCoordinator coords d.serial_number with
      | some coord =>
        dsimp only
        by_cases hcond : d.address ≠ "" ∧ d.address ≠ coord.address
        · rw [if_pos hcond]
          simpa using List.Sublist.cons₂ d ih
        · rw [if_neg hcond]
          exact List.Sublist.cons _ ih
      | none =>
        dsimp only
        by_cases hsup : supported_appliance ck includeList d.type = true
        · rw [if_pos hsup]
          exact List.Sublist.cons _ ih
        · rw [if_neg hsup]
          exact List.Sublist.cons _ ih

theorem iterate_new_sound {ck : ApplianceChecks} {coords : List Coordinator}
    {includeList : List String} {devs : List LanDevice} {d : LanDevice}
    (h : d ∈ (iterate_devices ck coords includeList devs).1) :
    d ∈ devs ∧ d.address ≠ "" ∧ findCoordinator coords d.serial_number = none
      ∧ supported_appliance ck includeList d.type = true := by
  induction devs with
  | nil => simp [iterate_devices] at h
  | cons d0 rest ih =>
    simp only [iterate_devices] at h
    by_cases ha : d0.address = ""
    · rw [if_pos ha] at h
      obtain ⟨h1, h2, h3, h4⟩ := ih h
      exact ⟨List.mem_cons_of_mem d0 h1, h2, h3, h4⟩
    · rw [if_neg ha] at h
      cases hfc : findCoordinator coords d0.serial_number with
      | some coord =>
        rw [hfc] at h
        dsimp only at h
        by_cases hcond : d0.address ≠ "" ∧ d0.address ≠ coord.address
        · rw [if_pos hcond] at h
          obtain ⟨h1, h2, h3, h4⟩ := ih h
          exact ⟨List.mem_cons_of_mem d0 h1, h2, h3, h4⟩
        · rw [if_neg hcond] at h
          obtain ⟨h1, h2, h3, h4⟩ := ih h
          exact ⟨List.mem_cons_of_mem d0 h1, h2, h3, h4⟩
      | none =>
        rw [hfc] at h
        dsimp only at h
        by_cases hsup : supported_appliance ck includeList d0.type = true
        · rw [if_pos hsup] at h
          rcases List.mem_cons.mp h with h | h
          · subst h
            exact ⟨List.mem_cons_self _ _, ha, hfc, hsup⟩
          · obtain ⟨h1, h2, h3, h4⟩ := ih h
            exact ⟨List.mem_cons_of_mem d0 h1, h2, h3, h4⟩
        · rw [if_neg hsup] at h
          obtain ⟨h1, h2, h3, h4⟩ := ih h
          exact ⟨List.mem_cons_of_mem d0 h1, h2, h3, h4⟩

theorem iterate_changed_sound {ck : ApplianceChecks} {coords : List Coordinator}
    {includeList : List String} {devs : List LanDevice} {chg : ChangedDevice}
    (h : chg ∈ (iterate_devices ck coords includeList devs).2) :
    chg.device ∈ devs ∧ chg.device.address ≠ "" ∧
      ∃ c, findCoordinator coords chg.device.serial_number = some c ∧
        chg.coordinatorSerial = c.serial_number ∧ chg.device.address ≠ c.address := by
  induction devs with
  | nil => simp [iterate_devices] at h
  | cons d0 rest ih =>
    simp only [iterate_devices] at h
    by_cases ha : d0.address = ""
    · rw [if_pos ha] at h
      obtain ⟨h1, h2, h3⟩ := ih h
      exact ⟨List.mem_cons_of_mem d0 h1, h2, h3⟩
    · rw [if_neg ha] at h
      cases hfc : findCoordinator coords d0.serial_number with
      | some coord =>
        rw [hfc] at h
        dsimp only at h
        by_cases hcond : d0.address ≠ "" ∧ d0.address ≠ coord.address
        · rw [if_pos hcond] at h
          rcases List.mem_cons.mp h with h | h
          · subst h
            exact ⟨List.mem_cons_self _ _, hcond.1, coord, hfc, rfl, hcond.2⟩
          · obtain ⟨h1, h2, h3⟩ := ih h
            exact ⟨List.mem_cons_of_mem d0 h1, h2, h3⟩
        · rw [if_neg hcond] at h
          obtain ⟨h1, h2, h3⟩ := ih h
          exact ⟨List.mem_cons_of_mem d0 h1, h2, h3⟩
      | none =>
        rw [hfc] at h
        dsimp only at h
        by_cases hsup : supported_appliance ck includeList d0.type = true
        · rw [if_pos hsup] at h
          obtain ⟨h1, h2, h3⟩ := ih h
          exact ⟨List.mem_cons_of_mem d0 h1, h2, h3⟩
        · rw [if_neg hsup] at h
          obtain ⟨h1, h2, h3⟩ := ih h
          exact ⟨List.mem_cons_of_mem d0 h1, h2, h3⟩

theorem iterate_changed_complete {ck : ApplianceChecks} {coords : List Coordinator}
    {includeList : List String} {devs : List LanDevice} {d : LanDevice} {c : Coordinator}
    (hd : d ∈ devs) (ha : d.address ≠ "")
    (hc : findCoordinator coords d.serial_number = some c)
    (hne : d.address ≠ c.address) :
    (⟨d, c.serial_number⟩ : ChangedDevice)
      ∈ (iterate_devices ck coords includeList devs).2 := by
  induction devs with
  | nil => simp at hd
  | cons d0 rest ih =>
    rcases List.mem_cons.mp hd with h | h
    · subst h
      simp only [iterate_devices]
      rw [if_neg ha, hc]
      dsimp only
      rw [if_pos ⟨ha, hne⟩]
      exact List.mem_cons_self _ _
    · have hmem := ih h
      simp only [iterate_devices]
      by_cases ha0 : d0.address = ""
      · rw [if_pos ha0]
        exact hmem
      · rw [if_neg ha0]
        cases hfc : findCoordinator coords d0.serial_number with
        | some coord =>
          dsimp only
          by_cases hcond : d0.address ≠ "" ∧ d0.address ≠ coord.address
          · rw [if_pos hcond]
            exact List.mem_cons_of_mem _ hmem
          · rw [if_neg hcond]
            exact hmem
        | none =>
          dsimp only
          by_cases hsup : supported_appliance ck includeList d0.type = true
          · rw [if_pos hsup]
            exact hmem
          · rw [if_neg hsup]
            exact hmem

theorem iterate_new_eq_of_serials (ck : ApplianceChecks) (includeList : List String)
    {coords coords' : List Coordinator}
    (h : coords.map Coordinator.serial_number = coords'.map Coordinator.serial_number)
    (devs : List LanDevice) :
    (iterate_devices ck coords includeList devs).1
      = (iterate_devices ck coords' includeList devs).1 := by
  induction devs with
  | nil => rfl
  | cons d rest ih =>
    simp only [iterate_devices]
    by_cases ha : d.address = ""
    · rw [if_pos ha, if_pos ha]
      exact ih
    · rw [if_neg ha, if_neg ha]
      have hiso := findCoordinator_isSome_of_map_serial h d.serial_number
      cases hfc : findCoordinator coords d.serial_number with
      | some c =>
        rw [hfc] at hiso
        obtain ⟨c', hfc'⟩ := Option.isSome_iff_exists.mp (by simpa using hiso.symm)
        rw [hfc']
        dsimp only
        by_cases hcond : d.address ≠ "" ∧ d.address ≠ c.address
        · rw [if_pos hcond]
          by_cases hcond' : d.address ≠ "" ∧ d.address ≠ c'.address
          · rw [if_pos hcond']
            exact ih
          · rw [if_neg hcond']
            exact ih
        · rw [if_neg hcond]
          by_cases hcond' : d.address ≠ "" ∧ d.address ≠ c'.address
          · rw [if_pos hcond']
            exact ih
          · rw [if_neg hcond']
            exact ih
      | none =>
        rw [hfc] at hiso
        have hfc' : findCoordinator coords' d.serial_number = none := by
          cases hx : findCoordinator coords' d.serial_number with
          | none => rfl
          | some c' => rw [hx] at hiso; simp at hiso
        rw [hfc']
        dsimp only
        by_cases hsup : supported_appliance ck includeList d.type = true
        · rw [if_pos hsup, if_pos hsup, ih]
        · rw [if_neg hsup, if_neg hsup]
          exact ih

/-! ## Lemmas: the admit pass -/

theorem possible_lan_of_mem {ns : NotifyState} {a : String} (s : String)
    (h : a ∈ ns.notifed) : possible_lan_notification ns s a = ns := by
  simp [possible_lan_notification, h]

theorem possible_lan_mem_self (ns : NotifyState) (s a : String) :
    a ∈ (possible_lan_notification ns s a).notifed := by
  simp only [possible_lan_notification]
  split
  · assumption
  · simp

theorem admitted_known_device_unique_id (known : DeviceConf) (new : LanDevice)
    (ns : NotifyState) :
    (admitted_known_device known new ns).known.unique_id = known.unique_id := by
  simp only [admitted_known_device]
  split
  · rename_i heq
    split
    · simpa using heq.symm
    · split <;> rfl
  · rfl

theorem admitted_known_device_discovery (known : DeviceConf) (new : LanDevice)
    (ns : NotifyState) :
    (admitted_known_device known new ns).known.discovery = known.discovery
      ∨ (known.discovery = DISCOVERY_WAIT ∧
          (admitted_known_device known new ns).known.discovery = DISCOVERY_LAN) := by
  simp only [admitted_known_device]
  split
  · split
    · rename_i hwait
      exact Or.inr ⟨hwait, rfl⟩
    · split <;> exact Or.inl rfl
  · exact Or.inl rfl

theorem admitted_known_device_notifed_subset (known : DeviceConf) (new : LanDevice)
    (ns : NotifyState) :
    ns.notifed ⊆ (admitted_known_device known new ns).ns.notifed := by
  simp only [admitted_known_device]
  split
  · split
    · exact fun x hx => hx
    · split
      · exact possible_lan_notification_notifed_subset ns _ _
      · exact fun x hx => hx
  · exact fun x hx => hx

theorem admitNewGo_cons (k : DeviceConf) (tail added : List DeviceConf)
    (needReload : Bool) (ns : NotifyState) (nds : List LanDevice) :
    admitNewGo
        { devConfs := k :: tail, added := added, needReload := needReload, ns := ns }
        nds
      = { devConfs := (admitHeadRun k needReload ns nds).1 :: tail
          added := added
          needReload := (admitHeadRun k needReload ns nds).2.1
          ns := (admitHeadRun k needReload ns nds).2.2 } := by
  induction nds generalizing k needReload ns with
  | nil => rfl
  | cons new rest ih =>
    simp only [admitNewGo, admitHeadRun]
    exact ih _ _ _

theorem admitNewGo_nil_shape (added : List DeviceConf) (needReload : Bool)
    (ns : NotifyState) (nds : List LanDevice) :
    (admitNewGo { devConfs := [], added := added, needReload := needReload, ns := ns }
        nds).devConfs = []
    ∧ (admitNewGo { devConfs := [], added := added, needReload := needReload, ns := ns }
        nds).added.map DeviceConf.unique_id
      = added.map DeviceConf.unique_id ++ nds.map LanDevice.serial_number := by
  induction nds generalizing added needReload ns with
  | nil => simp [admitNewGo]
  | cons new rest ih =>
    simp only [admitNewGo, admit_not_known_device]
    refine ⟨(ih _ _ _).1, ?_⟩
    rw [(ih _ _ _).2]
    simp

theorem admitHeadRun_unique_id (k : DeviceConf) (needReload : Bool) (ns : NotifyState)
    (nds : List LanDevice) :
    (admitHeadRun k needReload ns nds).1.unique_id = k.unique_id := by
  induction nds generalizing k needReload ns with
  | nil => rfl
  | cons new rest ih =>
    simp only [admitHeadRun]
    rw [ih]
    exact admitted_known_device_unique_id k new ns

theorem admitHeadRun_discovery (k : DeviceConf) (needReload : Bool) (ns : NotifyState)
    (nds : List LanDevice) :
    (admitHeadRun k needReload ns nds).1.discovery = k.discovery
      ∨ (k.discovery = DISCOVERY_WAIT ∧
          (admitHeadRun k needReload ns nds).1.discovery = DISCOVERY_LAN) := by
  induction nds generalizing k needReload ns with
  | nil => exact Or.inl rfl
  | cons new rest ih =>
    simp only [admitHeadRun]
    rcases admitted_known_device_discovery k new ns with hstep | ⟨hwait, hlan⟩
    · rcases ih (admitted_known_device k new ns).known _ _ with hih | ⟨hw, hl⟩
      · exact Or.inl (hih.trans hstep)
      · exact Or.inr ⟨hstep ▸ hw, hl⟩
    · rcases ih (admitted_known_device k new ns).known _ _ with hih | ⟨hw, hl⟩
      · exact Or.inr ⟨hwait, hih.trans hlan⟩
      · rw [hlan] at hw
        exact absurd hw (by decide)

theorem admitHeadRun_discovery_of_ne_wait (k : DeviceConf) (needReload : Bool)
    (ns : NotifyState) (nds : List LanDevice)
    (h : k.discovery ≠ DISCOVERY_WAIT) :
    (admitHeadRun k needReload ns nds).1.discovery = k.discovery := by
  rcases admitHeadRun_discovery k needReload ns nds with h1 | ⟨h2, _⟩
  · exact h1
  · exact absurd h2 h

theorem admitHeadRun_notifed_subset (k : DeviceConf) (needReload : Bool)
    (ns : NotifyState) (nds : List LanDevice) :
    ns.notifed ⊆ (admitHeadRun k needReload ns nds).2.2.notifed := by
  induction nds generalizing k needReload ns with
  | nil => exact fun x hx => hx
  | cons new rest ih =>
    simp only [admitHeadRun]
    exact fun x hx =>
      ih _ _ _ (admitted_known_device_notifed_subset k new ns hx)

theorem admitted_eq_promote {known : DeviceConf} {new : LanDevice} (ns : NotifyState)
    (h1 : known.unique_id = new.serial_number)
    (h2 : known.discovery = DISCOVERY_WAIT) :
    admitted_known_device known new ns =
      { known :=
          { known with
            discovery := DISCOVERY_LAN
            api_version := new.version
            dev_id := new.appliance_id
            ip_address := new.address
            token_key := new.key
            token := new.token
            type := new.type
            unique_id := new.serial_number }
        needReload := true
        ns := { ns with notifs := ns.notifs ++ [.waitDiscovery new.serial_number] } } := by
  simp only [admitted_known_device, if_pos h1, if_pos h2]

theorem admitted_eq_possible {known : DeviceConf} {new : LanDevice} (ns : NotifyState)
    (h1 : known.unique_id = new.serial_number)
    (h2 : known.discovery ≠ DISCOVERY_WAIT)
    (h3 : new.address ≠ "" ∧ known.discovery ≠ DISCOVERY_LAN) :
    admitted_known_device known new ns =
      { known := known, needReload := false
        ns := possible_lan_notification ns new.serial_number new.address } := by
  simp only [admitted_known_device, if_pos h1, if_neg h2, if_pos h3]

theorem admitted_eq_id_of_cond {known : DeviceConf} {new : LanDevice} (ns : NotifyState)
    (h1 : known.unique_id = new.serial_number)
    (h2 : known.discovery ≠ DISCOVERY_WAIT)
    (h3 : ¬(new.address ≠ "" ∧ known.discovery ≠ DISCOVERY_LAN)) :
    admitted_known_device known new ns =
      { known := known, needReload := false, ns := ns } := by
  simp only [admitted_known_device, if_pos h1, if_neg h2, if_neg h3]

theorem admitted_eq_id_of_ne {known : DeviceConf} {new : LanDevice} (ns : NotifyState)
    (h1 : known.unique_id ≠ new.serial_number) :
    admitted_known_device known new ns =
      { known := known, needReload := false, ns := ns } := by
  simp only [admitted_known_device, if_neg h1]

theorem admitInv_transport {nds : List LanDevice} {k k' : DeviceConf}
    {notifed notifed' : List String}
    (hid : k'.unique_id = k.unique_id) (hdisc : k'.discovery = k.discovery)
    (hsub : notifed ⊆ notifed') (h : AdmitInv nds k notifed) :
    AdmitInv nds k' notifed' := by
  intro d hd hser
  obtain ⟨h1, h2⟩ := h d hd (hser.trans hid)
  refine ⟨by rw [hdisc]; exact h1, fun ha hl => ?_⟩
  rw [hdisc] at hl
  exact hsub (h2 ha hl)

theorem admitInv_tail {new : LanDevice} {rest : List LanDevice} {k : DeviceConf}
    {notifed : List String} (h : AdmitInv (new :: rest) k notifed) :
    AdmitInv rest k notifed :=
  fun d hd hser => h d (List.mem_cons_of_mem new hd) hser

theorem admitHeadRun_establishes (k : DeviceConf) (needReload : Bool)
    (ns : NotifyState) (nds : List LanDevice) :
    AdmitInv nds (admitHeadRun k needReload ns nds).1
      (admitHeadRun k needReload ns nds).2.2.notifed := by
  induction nds generalizing k needReload ns with
  | nil => intro d hd; simp at hd
  | cons new rest ih =>
    intro d hd hser
    rcases List.mem_cons.mp hd with hdeq | hdrest
    · -- d is the device processed by this step
      subst hdeq
      simp only [admitHeadRun] at hser ⊢
      have huid : k.unique_id = d.serial_number := by
        rw [admitHeadRun_unique_id] at hser
        rw [admitted_known_device_unique_id] at hser
        exact hser.symm
      by_cases hw : k.discovery = DISCOVERY_WAIT
      · rw [admitted_eq_promote ns huid hw]
        rw [admitted_eq_promote ns huid hw] at hser
        have hdisc := admitHeadRun_discovery_of_ne_wait
          { k with
            discovery := DISCOVERY_LAN
            api_version := d.version
            dev_id := d.appliance_id
            ip_address := d.address
            token_key := d.key
            token := d.token
            type := d.type
            unique_id := d.serial_number }
          (needReload || true)
          { ns with notifs := ns.notifs ++ [.waitDiscovery d.serial_number] } rest
          (by simp [DISCOVERY_LAN, DISCOVERY_WAIT])
        constructor
        · rw [hdisc]
          simp [DISCOVERY_LAN, DISCOVERY_WAIT]
        · intro ha hl
          rw [hdisc] at hl
          simp at hl
      · by_cases hcond : d.address ≠ "" ∧ k.discovery ≠ DISCOVERY_LAN
        · rw [admitted_eq_possible ns huid hw hcond]
          rw [admitted_eq_possible ns huid hw hcond] at hser
          have hdisc := admitHeadRun_discovery_of_ne_wait k (needReload || false)
            (possible_lan_notification ns d.serial_number d.address) rest hw
          constructor
          · rw [hdisc]; exact hw
          · intro _ _
            apply admitHeadRun_notifed_subset
            exact possible_lan_mem_self ns d.serial_number d.address
        · rw [admitted_eq_id_of_cond ns huid hw hcond]
          rw [admitted_eq_id_of_cond ns huid hw hcond] at hser
          have hdisc := admitHeadRun_discovery_of_ne_wait k (needReload || false) ns rest
            hw
          constructor
          · rw [hdisc]; exact hw
          · intro ha hl
            rw [hdisc] at hl
            exact absurd ⟨ha, hl⟩ hcond
    · -- d comes from the rest of the list
      simp only [admitHeadRun] at hser ⊢
      exact ih _ _ _ d hdrest hser

theorem admitHeadRun_silent (k : DeviceConf) (ns : NotifyState) :
    ∀ {nds : List LanDevice}, AdmitInv nds k ns.notifed →
      ∀ needReload, admitHeadRun k needReload ns nds = (k, needReload, ns)
  | [], _, _ => rfl
  | new :: rest, hinv, needReload => by
    have hstep : admitted_known_device k new ns =
        { known := k, needReload := false, ns := ns } := by
      by_cases huid : k.unique_id = new.serial_number
      · obtain ⟨h1, h2⟩ := hinv new (List.mem_cons_self new rest) huid.symm
        by_cases hcond : new.address ≠ "" ∧ k.discovery ≠ DISCOVERY_LAN
        · rw [admitted_eq_possible ns huid h1 hcond]
          rw [possible_lan_of_mem new.serial_number (h2 hcond.1 hcond.2)]
        · exact admitted_eq_id_of_cond ns huid h1 hcond
      · exact admitted_eq_id_of_ne ns huid
    simp only [admitHeadRun, hstep, Bool.or_false]
    exact admitHeadRun_silent k ns (admitInv_tail hinv) needReload

theorem map_idMode_head {k : DeviceConf} {tail confs' : List DeviceConf}
    (h : confs'.map idMode = (k :: tail).map idMode) :
    ∃ k' tail', confs' = k' :: tail' ∧ k'.unique_id = k.unique_id
      ∧ k'.discovery = k.discovery := by
  cases confs' with
  | nil => simp at h
  | cons k' tail' =>
    simp only [List.map_cons, List.cons.injEq] at h
    have h1 := congrArg Prod.fst h.1
    have h2 := congrArg Prod.snd h.1
    exact ⟨k', tail', rfl, by simpa [idMode] using h1, by simpa [idMode] using h2⟩

/-! ## Claim theorems -/

/-- Claim C8 (confirmed): end-to-end wait-promotion scenario.  With a registry
holding exactly one `DeviceConfig` (serial `SN1`, mode `wait`, sentinel
address), no live coordinator, and one scan result of a supported type with
serial `SN1` and address `192.0.2.5`, the merge sets the config's mode to
`lan`, its address to `192.0.2.5`, and requests a config-entry reload. -/
theorem claim_c8_wait_promotion_scenario :
    (run_discovery sampleChecks stC8 [devSN1]).st.devConfs.map DeviceConf.discovery
        = [DISCOVERY_LAN]
    ∧ (run_discovery sampleChecks stC8 [devSN1]).st.devConfs.map DeviceConf.ip_address
        = ["192.0.2.5"]
    ∧ (run_discovery sampleChecks stC8 [devSN1]).reloadScheduled = true := by
  refine ⟨rfl, rfl, rfl⟩

/-- Claim C9 (confirmed): end-to-end cloud-mode scenario.  With a registry
holding one `cloud`-mode `DeviceConfig` for `SN3` at the sentinel address, a
live coordinator tracking `SN3`, and one scan result for `SN3` at a real LAN
address, the merge emits the "could switch to LAN" notification exactly
once (a second identical run emits nothing), keeps the mode `cloud`,
stores the LAN address, persists the configuration, and does not reload. -/
theorem claim_c9_cloud_mode_scenario :
    (run_discovery sampleChecks stC9 [devSN3]).notifs
        = [Notification.nonLanDiscovery "SN3" "192.0.2.88"]
    ∧ (run_discovery sampleChecks
        (run_discovery sampleChecks stC9 [devSN3]).st [devSN3]).notifs = []
    ∧ (run_discovery sampleChecks stC9 [devSN3]).st.devConfs.map DeviceConf.discovery
        = [DISCOVERY_CLOUD]
    ∧ (run_discovery sampleChecks stC9 [devSN3]).st.devConfs.map DeviceConf.ip_address
        = ["192.0.2.88"]
    ∧ (run_discovery sampleChecks stC9 [devSN3]).entryUpdated = true
    ∧ (run_discovery sampleChecks stC9 [devSN3]).reloadScheduled = false := by
  refine ⟨rfl, rfl, rfl, rfl, rfl, rfl⟩

/-- Claim C2 (code bug): the unconditional `break` in `_admit_new` examines
only the first registry entry.  With a registry `[lan-mode SNA, wait-mode
SNB]`, no coordinators, and a supported scan result for `SNB` with a
non-empty address, the merge changes nothing: the wait-mode entry at
position 1 is not promoted, no reload is requested, and no notification is
created — contradicting the claimed position-independent promotion. -/
theorem claim_c2_wait_promotion_skipped :
    (run_discovery sampleChecks stC2 [devB]).st.devConfs = [confLanA, confWaitB]
    ∧ (run_discovery sampleChecks stC2 [devB]).reloadScheduled = false
    ∧ (run_discovery sampleChecks stC2 [devB]).notifs = [] := by
  refine ⟨rfl, rfl, rfl⟩

/-- Claim C3 (code bug): with a non-empty registry `[SNA]` and a supported
scan result for the unknown serial `SNB`, the unconditional `break` skips
the `for ... else` admission branch entirely: no `ignore`-mode entry is
appended, no reload is requested, and no notification is created —
contradicting the claimed admission of unknown devices. -/
theorem claim_c3_unknown_device_not_admitted :
    (run_discovery sampleChecks stC3 [devB]).st.devConfs = [confLanA]
    ∧ (run_discovery sampleChecks stC3 [devB]).reloadScheduled = false
    ∧ (run_discovery sampleChecks stC3 [devB]).notifs = [] := by
  refine ⟨rfl, rfl, rfl⟩

/-- Claim C1 counterexample: an empty registry has pairwise-distinct ids,
yet merging a scan result that contains the same supported device twice
creates two entries with the same unique id `SNB`. -/
theorem claim_c1_counterexample :
    (stEmpty.devConfs.map DeviceConf.unique_id).Nodup
    ∧ ¬ ((run_discovery sampleChecks stEmpty [devB, devB]).st.devConfs.map
          DeviceConf.unique_id).Nodup := by
  constructor
  · decide
  · decide

/-- Claim C4 counterexample: with an empty registry and one supported scan
result, the first merge admits the device as `ignore`; re-running the same
merge immediately afterwards emits a further "could switch to LAN"
notification, so the second run is not notification-free. -/
theorem claim_c4_counterexample :
    (run_discovery sampleChecks
        (run_discovery sampleChecks stEmpty [devB]).st [devB]).notifs
      = [Notification.nonLanDiscovery "SNB" "192.0.2.9"] := by
  rfl

/-- Claim C6 counterexample: a coordinator built from a device configuration
without a `ttl` key has `time_to_leave = 100` seconds, so a failure streak
that starts at time 0 already raises `UpdateFailed` at time 100 — well
before the claimed default grace of ~5 minutes (`DEFAULT_TTL * 60 = 300`
seconds). -/
theorem claim_c6_counterexample :
    (appliance_refresh (initCoordinatorState confCloudSN3 true) 0 .mideaError).2 = false
    ∧ (appliance_refresh
        (appliance_refresh (initCoordinatorState confCloudSN3 true) 0 .mideaError).1
        100 .mideaError).2 = true
    ∧ 100 < DEFAULT_TTL * 60 := by
  refine ⟨rfl, rfl, by decide⟩

theorem mergeGo_map_unique_id (st : MergePass) (chgs : List ChangedDevice) :
    (mergeGo st chgs).devConfs.map DeviceConf.unique_id
      = st.devConfs.map DeviceConf.unique_id := by
  have h := mergeGo_map_idMode st chgs
  have h1 := congrArg (List.map Prod.fst) h
  simpa [Function.comp, idMode] using h1

/-- Claim C1 (amended): uniqueness of serial ids is preserved by the merge
provided the scan result's devices carry pairwise-distinct serial numbers:
for every registry with pairwise-distinct unique ids and every such scan
result, the merged registry still has pairwise-distinct unique ids. -/
theorem claim_c1_unique_ids (ck : ApplianceChecks) (st : DiscoveryState)
    (devices : List LanDevice)
    (hconf : (st.devConfs.map DeviceConf.unique_id).Nodup)
    (hdev : (devices.map LanDevice.serial_number).Nodup) :
    ((run_discovery ck st devices).st.devConfs.map DeviceConf.unique_id).Nodup := by
  simp only [run_discovery]
  rw [mergeGo_map_unique_id]
  simp only [admit_new]
  cases hc : st.devConfs with
  | nil =>
    have hshape := admitNewGo_nil_shape [] false
      { notifed := st.notifedAddresses, notifs := [] }
      (iterate_devices ck st.coordinators st.includeList devices).1
    rw [List.map_append, hshape.1, hshape.2]
    simp only [List.map_nil, List.nil_append]
    have hsub := (iterate_new_sublist ck st.coordinators st.includeList devices).map
      LanDevice.serial_number
    exact hdev.sublist hsub
  | cons k tail =>
    rw [admitNewGo_cons]
    rw [hc] at hconf
    simpa [admitHeadRun_unique_id] using hconf

/-- Witness for the amended C1 at a concrete registry and scan result. -/
theorem claim_c1_unique_ids_witness :
    (stC2.devConfs.map DeviceConf.unique_id).Nodup
    ∧ ([devB].map LanDevice.serial_number).Nodup
    ∧ ((run_discovery sampleChecks stC2 [devB]).st.devConfs.map
        DeviceConf.unique_id).Nodup :=
  ⟨by decide, by decide,
    claim_c1_unique_ids sampleChecks stC2 [devB] (by decide) (by decide)⟩

theorem iterate_new_empty_include (ck : ApplianceChecks) (coords : List Coordinator)
    (devs : List LanDevice) :
    (iterate_devices ck coords [] devs).1 = [] := by
  induction devs with
  | nil => rfl
  | cons d rest ih =>
    simp only [iterate_devices]
    by_cases ha : d.address = ""
    · rw [if_pos ha]
      exact ih
    · rw [if_neg ha]
      cases hfc : findCoordinator coords d.serial_number with
      | some coord =>
        dsimp only
        by_cases hcond : d.address ≠ "" ∧ d.address ≠ coord.address
        · rw [if_pos hcond]
          exact ih
        · rw [if_neg hcond]
          exact ih
      | none =>
        dsimp only
        have hsup : supported_appliance ck [] d.type = false := rfl
        rw [if_neg (by simp [hsup])]
        exact ih

/-- Claim C10 (confirmed): a device classified as new by `_iterate_devices`
passed `supported_appliance`, i.e. the configured include list contains its
appliance-type category and the external check accepts it; and for a
configuration with no include list `supported_appliance` rejects every
appliance type, so no device is ever classified as new. -/
theorem claim_c10_admission_gated_on_include (ck : ApplianceChecks)
    (coords : List Coordinator) (includeList : List String)
    (devices : List LanDevice) (d : LanDevice)
    (hmem : d ∈ (iterate_devices ck coords includeList devices).1) :
    ((APPLIANCE_TYPE_AIRCON ∈ includeList ∧ ck.acSupported d.type = true)
      ∨ (APPLIANCE_TYPE_DEHUMIDIFIER ∈ includeList ∧ ck.dhSupported d.type = true))
    ∧ (∀ t, supported_appliance ck [] t = false)
    ∧ (∀ coords' devices', (iterate_devices ck coords' [] devices').1 = []) := by
  refine ⟨?_, fun t => rfl,
    fun coords' devices' => iterate_new_empty_include ck coords' devices'⟩
  have hsup := (iterate_new_sound hmem).2.2.2
  simp only [supported_appliance, supportableAppliances, List.any_cons, List.any_nil,
    Bool.or_false, Bool.or_eq_true, Bool.and_eq_true] at hsup
  rcases hsup with ⟨h1, h2⟩ | ⟨h1, h2⟩
  · exact Or.inl ⟨by simpa using h1, h2⟩
  · exact Or.inr ⟨by simpa using h1, h2⟩

/-- Witness for C10 at a concrete configuration and device. -/
theorem claim_c10_admission_witness :
    devB ∈ (iterate_devices sampleChecks [] [APPLIANCE_TYPE_DEHUMIDIFIER] [devB]).1
    ∧ ((APPLIANCE_TYPE_AIRCON ∈ [APPLIANCE_TYPE_DEHUMIDIFIER]
          ∧ sampleChecks.acSupported devB.type = true)
        ∨ (APPLIANCE_TYPE_DEHUMIDIFIER ∈ [APPLIANCE_TYPE_DEHUMIDIFIER]
          ∧ sampleChecks.dhSupported devB.type = true)) :=
  ⟨by decide,
    (claim_c10_admission_gated_on_include sampleChecks [] [APPLIANCE_TYPE_DEHUMIDIFIER]
      [devB] devB (by decide)).1⟩

/-- Claim C6 (amended): while a coordinator is available and not mid-update, a
`MideaError` during refresh raises `UpdateFailed` exactly when the time
elapsed since the first failure of the current streak reaches the device's
`time_to_leave`, whose default — `device.get(CONF_TTL, 100)` with no module
ever writing `CONF_TTL` — is 100 seconds (not ~5 minutes); the first failure
of a streak records its own time (and raises only for a zero TTL), and a
successful refresh resets the failure streak. -/
theorem claim_c6_ttl_grace (device : DeviceConf) (st : CoordinatorRefreshState)
    (now : Nat)
    (httl : device.ttl = none)
    (havail : st.available = true)
    (hwait : st.waitForUpdate = false) :
    (initCoordinatorState device true).timeToLeave = 100
    ∧ (st.hasFailure = true →
        ((appliance_refresh st now .mideaError).2 = true
          ↔ st.timeToLeave ≤ now - st.firstFailureTime))
    ∧ (st.hasFailure = false →
        (appliance_refresh st now .mideaError).1.hasFailure = true
        ∧ (appliance_refresh st now .mideaError).1.firstFailureTime = now
        ∧ ((appliance_refresh st now .mideaError).2 = true ↔ st.timeToLeave = 0))
    ∧ (appliance_refresh st now .success).1.hasFailure = false := by
  refine ⟨?_, ?_, ?_, ?_⟩
  · simp [initCoordinatorState, httl]
  · intro hf
    simp [appliance_refresh, hwait, hf]
  · intro hf
    simp [appliance_refresh, hwait, hf, Nat.sub_self, Nat.le_zero]
  · simp [appliance_refresh, hwait]

/-- Witness for the amended C6 at a concrete coordinator state. -/
theorem claim_c6_ttl_grace_witness :
    confCloudSN3.ttl = none ∧ stC6.available = true ∧ stC6.waitForUpdate = false
    ∧ stC6.hasFailure = true
    ∧ ((appliance_refresh stC6 50 RefreshCall.mideaError).2 = true
        ↔ stC6.timeToLeave ≤ 50 - stC6.firstFailureTime)
    ∧ (appliance_refresh stC6 50 RefreshCall.success).1.hasFailure = false :=
  ⟨by decide, by decide, by decide, by decide,
    (claim_c6_ttl_grace confCloudSN3 stC6 50 (by decide) (by decide) (by decide)).2.1 rfl,
    (claim_c6_ttl_grace confCloudSN3 stC6 50 (by decide) (by decide) (by decide)).2.2.2⟩

theorem foldl_setup_step_snd :
    ∀ (ds : List DeviceConf) (acc : List String × Bool),
      (ds.foldl setup_step acc).2 = acc.2
  | [], _ => rfl
  | d :: rest, acc => by
    rw [List.foldl_cons, foldl_setup_step_snd rest _]
    rfl

theorem foldl_setup_step_device_snd :
    ∀ (cs : List Coordinator) (acc : List String × Bool),
      (cs.foldl (fun acc c => setup_step acc c.device) acc).2 = acc.2
  | [], _ => rfl
  | c :: rest, acc => by
    rw [List.foldl_cons, foldl_setup_step_device_snd rest _]
    rfl

theorem discovery_setup_iterator_not_installed (netBroadcast : String → String)
    (devConfs : List DeviceConf) (coords : List Coordinator)
    (confBroadcastAddress : List String) :
    (discovery_setup netBroadcast devConfs coords confBroadcastAddress).iteratorInstalled
      = false := by
  simp only [discovery_setup]
  rw [foldl_setup_step_device_snd, foldl_setup_step_snd]
  rfl

theorem tick_addresses_of_not_installed {st : AddressState}
    (h : st.iteratorInstalled = false) (hne : st.broadcastAddresses ≠ [])
    (nextBatch : Option (List String)) (ifaceBroadcast : List String) :
    tick_addresses st nextBatch ifaceBroadcast = st.broadcastAddresses := by
  simp only [tick_addresses, h]
  cases hb : st.broadcastAddresses with
  | nil => exact absurd hb hne
  | cons a tl => simp

/-- Claim C7 (code bug): `_add_if_discoverable` returns `None` (falsy), so
`_setup` never sets `has_discoverable`, never installs the cyclic address
iterator, and every tick's scanned address list is exactly the broadcast
list (local broadcast plus directed broadcasts) — the batches of the range
iterator claimed by the specification can never appear, and since the
broadcast list always contains the local broadcast, the interface-broadcast
fallback can never trigger either. -/
theorem claim_c7_iterator_never_installed (netBroadcast : String → String)
    (devConfs : List DeviceConf) (coords : List Coordinator)
    (confBroadcastAddress : List String) (nextBatch : Option (List String))
    (ifaceBroadcast : List String) :
    (discovery_setup netBroadcast devConfs coords confBroadcastAddress).iteratorInstalled
        = false
    ∧ tick_addresses (discovery_setup netBroadcast devConfs coords confBroadcastAddress)
        nextBatch ifaceBroadcast
      = (discovery_setup netBroadcast devConfs coords confBroadcastAddress).broadcastAddresses := by
  refine ⟨discovery_setup_iterator_not_installed netBroadcast devConfs coords
    confBroadcastAddress, ?_⟩
  apply tick_addresses_of_not_installed
  · exact discovery_setup_iterator_not_installed netBroadcast devConfs coords
      confBroadcastAddress
  · show LOCAL_BROADCAST :: _ ≠ []
    exact List.cons_ne_nil _ _

theorem findCoordinator_of_first :
    ∀ {coords : List Coordinator} {ci : Nat} {c : Coordinator} {s : String},
      coords.get? ci = some c →
      (∀ j, j < ci → ∀ c', coords.get? j = some c' → c'.serial_number ≠ s) →
      c.serial_number = s →
      findCoordinator coords s = some c
  | [], ci, c, s, hci, _, _ => by simp at hci
  | c0 :: rest, 0, c, s, hci, _, hcs => by
    simp only [List.get?_cons_zero, Option.some.injEq] at hci
    subst hci
    have hb : (c0.serial_number == s) = true := by simpa using hcs
    simp [findCoordinator, List.find?_cons, hb]
  | c0 :: rest, ci + 1, c, s, hci, hfirst, hcs => by
    simp only [List.get?_cons_succ] at hci
    have h0 : c0.serial_number ≠ s :=
      hfirst 0 (Nat.succ_pos ci) c0 rfl
    have hb : (c0.serial_number == s) = false := by simpa using h0
    have hrec := findCoordinator_of_first hci
      (fun j hj c' hc' => hfirst (j + 1) (Nat.succ_lt_succ hj) c' hc') hcs
    simp only [findCoordinator, List.find?_cons, hb]
    exact hrec

theorem setCoordinatorAddress_of_first :
    ∀ {coords : List Coordinator} {ci : Nat} {c : Coordinator} {s : String} (a : String),
      coords.get? ci = some c →
      (∀ j, j < ci → ∀ c', coords.get? j = some c' → c'.serial_number ≠ s) →
      c.serial_number = s →
      setCoordinatorAddress coords s a = coords.set ci { c with address := a }
  | [], ci, c, s, a, hci, _, _ => by simp at hci
  | c0 :: rest, 0, c, s, a, hci, _, hcs => by
    simp only [List.get?_cons_zero, Option.some.injEq] at hci
    subst hci
    simp only [setCoordinatorAddress, if_pos hcs, List.set_cons_zero]
  | c0 :: rest, ci + 1, c, s, a, hci, hfirst, hcs => by
    simp only [List.get?_cons_succ] at hci
    have h0 : c0.serial_number ≠ s :=
      hfirst 0 (Nat.succ_pos ci) c0 rfl
    have hrec := setCoordinatorAddress_of_first a hci
      (fun j hj c' hc' => hfirst (j + 1) (Nat.succ_lt_succ hj) c' hc') hcs
    simp only [setCoordinatorAddress, if_neg h0, List.set_cons_succ, hrec]

theorem mergeKnown_of_first :
    ∀ {confs : List DeviceConf} {i : Nat} {k : DeviceConf} {s : String} (a : String),
      confs.get? i = some k →
      (∀ j, j < i → ∀ k', confs.get? j = some k' → k'.unique_id ≠ s) →
      k.unique_id = s →
      mergeKnown s a confs
        = (confs.set i { k with ip_address := a }, some { k with ip_address := a })
  | [], i, k, s, a, hk, _, _ => by simp at hk
  | k0 :: rest, 0, k, s, a, hk, _, hks => by
    simp only [List.get?_cons_zero, Option.some.injEq] at hk
    subst hk
    simp only [mergeKnown, if_pos hks, List.set_cons_zero]
  | k0 :: rest, i + 1, k, s, a, hk, hfirst, hks => by
    simp only [List.get?_cons_succ] at hk
    have h0 : k0.unique_id ≠ s :=
      hfirst 0 (Nat.succ_pos i) k0 rfl
    have hrec := mergeKnown_of_first a hk
      (fun j hj k' hk' => hfirst (j + 1) (Nat.succ_lt_succ hj) k' hk') hks
    simp only [mergeKnown, if_neg h0, List.set_cons_succ, hrec]

theorem admit_new_nil_devices (confs : List DeviceConf) (ns : NotifyState) :
    admit_new [] confs ns = (confs, false, ns) := by
  simp [admit_new, admitNewGo]

/-- Claim C5 (confirmed): the address-changed pass touches only the address.
For a scan result consisting of one device whose serial number is tracked by
a live coordinator (the first such coordinator, at index `ci`) whose cached
address differs from the device's non-empty address, and whose serial number
matches a configuration entry (the first such entry, at index `i`), the
merge replaces exactly that entry by the same entry with only `ip_address`
overwritten, and exactly that coordinator by the same coordinator with only
its cached address overwritten; every other entry and field — in particular
discovery mode, token and key — is unchanged. -/
theorem claim_c5_address_update_only (ck : ApplianceChecks) (st : DiscoveryState)
    (d : LanDevice) (c : Coordinator) (ci : Nat) (k : DeviceConf) (i : Nat)
    (hci : st.coordinators.get? ci = some c)
    (hcifirst : ∀ j, j < ci → ∀ c', st.coordinators.get? j = some c' →
      c'.serial_number ≠ d.serial_number)
    (hcs : c.serial_number = d.serial_number)
    (ha : d.address ≠ "")
    (hdiff : d.address ≠ c.address)
    (hk : st.devConfs.get? i = some k)
    (hkfirst : ∀ j, j < i → ∀ k', st.devConfs.get? j = some k' →
      k'.unique_id ≠ d.serial_number)
    (hks : k.unique_id = d.serial_number) :
    (run_discovery ck st [d]).st.devConfs
        = st.devConfs.set i { k with ip_address := d.address }
    ∧ (run_discovery ck st [d]).st.coordinators
        = st.coordinators.set ci { c with address := d.address } := by
  have hfc : findCoordinator st.coordinators d.serial_number = some c :=
    findCoordinator_of_first hci hcifirst hcs
  have hit : iterate_devices ck st.coordinators st.includeList [d]
      = ([], [⟨d, c.serial_number⟩]) := by
    simp only [iterate_devices]
    rw [if_neg ha, hfc]
    dsimp only
    rw [if_pos ⟨ha, hdiff⟩]
  have hmk : mergeKnown c.serial_number d.address st.devConfs
      = (st.devConfs.set i { k with ip_address := d.address },
         some { k with ip_address := d.address }) := by
    rw [hcs]
    exact mergeKnown_of_first d.address hk hkfirst hks
  have hset : setCoordinatorAddress st.coordinators c.serial_number d.address
      = st.coordinators.set ci { c with address := d.address } := by
    conv_lhs => rw [hcs]
    exact setCoordinatorAddress_of_first d.address hci hcifirst hcs
  simp only [run_discovery, hit]
  rw [admit_new_nil_devices]
  simp only [mergeGo]
  rw [hmk]
  dsimp only
  rw [hset]
  exact ⟨rfl, rfl⟩

/-- Witness for C5 at a concrete state: one cloud-mode entry and one tracked
coordinator for `SN3`, scanned at a new address. -/
theorem claim_c5_address_update_only_witness :
    stC9.coordinators.get? 0 = some coordSN3
    ∧ stC9.devConfs.get? 0 = some confCloudSN3
    ∧ coordSN3.serial_number = devSN3.serial_number
    ∧ (run_discovery sampleChecks stC9 [devSN3]).st.devConfs
        = stC9.devConfs.set 0 { confCloudSN3 with ip_address := devSN3.address }
    ∧ (run_discovery sampleChecks stC9 [devSN3]).st.coordinators
        = stC9.coordinators.set 0 { coordSN3 with address := devSN3.address } :=
  ⟨rfl, rfl, rfl,
    (claim_c5_address_update_only sampleChecks stC9 devSN3 coordSN3 0 confCloudSN3 0
      rfl (fun j hj _ _ => absurd hj (Nat.not_lt_zero j)) rfl (by decide) (by decide)
      rfl (fun j hj _ _ => absurd hj (Nat.not_lt_zero j)) rfl).1,
    (claim_c5_address_update_only sampleChecks stC9 devSN3 coordSN3 0 confCloudSN3 0
      rfl (fun j hj _ _ => absurd hj (Nat.not_lt_zero j)) rfl (by decide) (by decide)
      rfl (fun j hj _ _ => absurd hj (Nat.not_lt_zero j)) rfl).2⟩

theorem second_pass_no_match (ck : ApplianceChecks) (includeList : List String)
    (coords0 : List Coordinator) (mp0 : MergePass) (devices : List LanDevice)
    (hdev : (devices.map LanDevice.serial_number).Nodup)
    (hcoords : mp0.coordinators = coords0)
    {chg : ChangedDevice}
    (hchg : chg ∈ (iterate_devices ck
        (mergeGo mp0 (iterate_devices ck coords0 includeList devices).2).coordinators
        includeList devices).2)
    {k : DeviceConf}
    (hk : k ∈ (mergeGo mp0 (iterate_devices ck coords0 includeList devices).2).devConfs) :
    k.unique_id ≠ chg.coordinatorSerial := by
  intro heq
  obtain ⟨hdmem, hdaddr, c1, hfc1, hserial, hne1⟩ := iterate_changed_sound hchg
  have hc1s : c1.serial_number = chg.device.serial_number := findCoordinator_serial hfc1
  have hks : k.unique_id = chg.device.serial_number := by
    rw [heq, hserial, hc1s]
  have hmap := mergeGo_map_idMode mp0 (iterate_devices ck coords0 includeList devices).2
  have hex0 : ∃ k' ∈ mp0.devConfs, k'.unique_id = chg.device.serial_number :=
    mem_unique_id_of_map hmap ⟨k, hk, hks⟩
  have hser0 :
      (mergeGo mp0 (iterate_devices ck coords0 includeList devices).2).coordinators.map
          Coordinator.serial_number
        = coords0.map Coordinator.serial_number := by
    rw [mergeGo_map_serial, hcoords]
  have hiso := findCoordinator_isSome_of_map_serial hser0 chg.device.serial_number
  rw [hfc1] at hiso
  obtain ⟨c0, hc0⟩ := Option.isSome_iff_exists.mp (by simpa using hiso.symm)
  have hc0s : c0.serial_number = chg.device.serial_number := findCoordinator_serial hc0
  by_cases hA : chg.device.address = c0.address
  · -- the device was not an address-changed device in the first run, so the
    -- first merge never touched its coordinator
    have hnotin : ∀ chg' ∈ (iterate_devices ck coords0 includeList devices).2,
        chg'.coordinatorSerial ≠ chg.device.serial_number := by
      intro chg' hchg' hser'
      obtain ⟨hdm', _, c', hfc', hserial', hne'⟩ := iterate_changed_sound hchg'
      have hcs' : c'.serial_number = chg'.device.serial_number :=
        findCoordinator_serial hfc'
      have hxs : chg'.device.serial_number = chg.device.serial_number := by
        rw [← hcs', ← hserial']
        exact hser'
      have heqd : chg'.device = chg.device :=
        List.inj_on_of_nodup_map hdev hdm' hdmem hxs
      rw [heqd] at hfc'
      rw [hfc'] at hc0
      have hcc : c' = c0 := by
        injection hc0
      rw [heqd, hcc] at hne'
      exact hne' hA
    have hfind1 := @mergeGo_findCoordinator_of_not_mem mp0 _ _ hnotin
    rw [hcoords, hc0, hfc1] at hfind1
    have hcc : c1 = c0 := by injection hfind1
    rw [hcc] at hne1
    exact hne1 hA
  · -- the device was an address-changed device in the first run, and the
    -- first merge already wrote its address into the coordinator
    have hchg1 : (⟨chg.device, c0.serial_number⟩ : ChangedDevice)
        ∈ (iterate_devices ck coords0 includeList devices).2 :=
      iterate_changed_complete hdmem hdaddr hc0 hA
    have haddr : ∀ chg' ∈ (iterate_devices ck coords0 includeList devices).2,
        chg'.coordinatorSerial = chg.device.serial_number →
          chg'.device.address = chg.device.address := by
      intro chg' hchg' hser'
      obtain ⟨hdm', _, c', hfc', hserial', _⟩ := iterate_changed_sound hchg'
      have hcs' : c'.serial_number = chg'.device.serial_number :=
        findCoordinator_serial hfc'
      have hxs : chg'.device.serial_number = chg.device.serial_number := by
        rw [← hcs', ← hserial']
        exact hser'
      have heqd : chg'.device = chg.device :=
        List.inj_on_of_nodup_map hdev hdm' hdmem hxs
      rw [heqd]
    have hcoord : (findCoordinator mp0.coordinators chg.device.serial_number).isSome := by
      rw [hcoords, hc0]
      rfl
    obtain ⟨c', hc', hca⟩ := mergeGo_findCoordinator_addr
      ⟨⟨chg.device, c0.serial_number⟩, hchg1, hc0s⟩ haddr hex0 hcoord
    rw [hfc1] at hc'
    have hcc : c1 = c' := by injection hc'
    rw [← hcc] at hca
    exact hne1 hca.symm

theorem run_discovery_proj (ck : ApplianceChecks) (st : DiscoveryState)
    (devices : List LanDevice) (k0 : DeviceConf) (tail : List DeviceConf)
    (hc : st.devConfs = k0 :: tail) :
    (run_discovery ck st devices).st
        = { st with
            devConfs := (run1Merge ck st devices k0 tail).devConfs
            coordinators := (run1Merge ck st devices k0 tail).coordinators
            notifedAddresses := (run1Merge ck st devices k0 tail).ns.notifed }
    ∧ (run_discovery ck st devices).needReload = (run1Admit ck st devices k0).2.1
    ∧ (run_discovery ck st devices).notifs
        = (run1Merge ck st devices k0 tail).ns.notifs := by
  refine ⟨?_, ?_, ?_⟩ <;>
    simp only [run_discovery, hc, admit_new, admitNewGo_cons, List.append_nil,
      run1Merge, run1Admit]

/-- Claim C4 (amended): the merge is idempotent on notifications and reload
signals provided the registry is non-empty and the scan result's devices
carry pairwise-distinct serial numbers: running the full merge a second time
with the same device list, on the registry, coordinator and
notified-addresses state left by the first run, emits no notification and
reports no need for reload. -/
theorem claim_c4_second_run_silent (ck : ApplianceChecks) (st : DiscoveryState)
    (devices : List LanDevice)
    (hne : st.devConfs ≠ [])
    (hdev : (devices.map LanDevice.serial_number).Nodup) :
    (run_discovery ck (run_discovery ck st devices).st devices).notifs = []
    ∧ (run_discovery ck (run_discovery ck st devices).st devices).needReload = false := by
  obtain ⟨k0, tail, hc⟩ : ∃ k0 tail, st.devConfs = k0 :: tail := by
    cases hx : st.devConfs with
    | nil => exact absurd hx hne
    | cons a l => exact ⟨a, l, rfl⟩
  obtain ⟨hst1, -, -⟩ := run_discovery_proj ck st devices k0 tail hc
  -- projections of the state left by the first run
  have hco : (run_discovery ck st devices).st.coordinators
      = (run1Merge ck st devices k0 tail).coordinators := by rw [hst1]
  have hinc : (run_discovery ck st devices).st.includeList = st.includeList := by
    rw [hst1]
  have hnfd : (run_discovery ck st devices).st.notifedAddresses
      = (run1Merge ck st devices k0 tail).ns.notifed := by rw [hst1]
  -- coordinator serial numbers are preserved by the first merge
  have hser : (run1Merge ck st devices k0 tail).coordinators.map
        Coordinator.serial_number
      = st.coordinators.map Coordinator.serial_number := mergeGo_map_serial _ _
  -- head decomposition of the registry after the first run
  have hmap1 : (run1Merge ck st devices k0 tail).devConfs.map idMode
      = ((run1Admit ck st devices k0).1 :: tail).map idMode := mergeGo_map_idMode _ _
  obtain ⟨k1, tail1, hc2, hid, hdisc⟩ := map_idMode_head hmap1
  -- the second run classifies the same devices as new
  have hnd2 : (iterate_devices ck (run1Merge ck st devices k0 tail).coordinators
        st.includeList devices).1
      = (iterate_devices ck st.coordinators st.includeList devices).1 :=
    iterate_new_eq_of_serials ck st.includeList hser devices
  -- the invariant established by the first admit pass, transported through
  -- the first merge pass
  have hinv1 : AdmitInv (iterate_devices ck st.coordinators st.includeList devices).1
      (run1Admit ck st devices k0).1 (run1Admit ck st devices k0).2.2.notifed :=
    admitHeadRun_establishes k0 false _ _
  have hsub1 : (run1Admit ck st devices k0).2.2.notifed
      ⊆ (run1Merge ck st devices k0 tail).ns.notifed :=
    mergeGo_notifed_subset
      { devConfs := (run1Admit ck st devices k0).1 :: tail
        coordinators := st.coordinators
        ns := (run1Admit ck st devices k0).2.2
        updatedConf := false }
      (iterate_devices ck st.coordinators st.includeList devices).2
  have hinv2 : AdmitInv (iterate_devices ck st.coordinators st.includeList devices).1
      k1 (run1Merge ck st devices k0 tail).ns.notifed :=
    admitInv_transport hid hdisc hsub1 hinv1
  -- the second admit pass is the identity
  have hadm2 : run1Admit ck ((run_discovery ck st devices).st) devices k1
      = (k1, false,
          { notifed := (run1Merge ck st devices k0 tail).ns.notifed, notifs := [] }) := by
    simp only [run1Admit, hinc, hco, hnd2, hnfd]
    exact admitHeadRun_silent k1
      { notifed := (run1Merge ck st devices k0 tail).ns.notifed, notifs := [] }
      hinv2 false
  -- the registry after the first run
  have hc2' : (run_discovery ck st devices).st.devConfs = k1 :: tail1 := by
    rw [hst1]
    exact hc2
  -- no changed device of the second run matches any configuration entry
  have hnomatch : ∀ chg ∈ (iterate_devices ck
        ((run_discovery ck st devices).st.coordinators)
        ((run_discovery ck st devices).st.includeList) devices).2,
      ∀ k ∈ (k1 :: tail1), k.unique_id ≠ chg.coordinatorSerial := by
    intro chg hchg k hk
    rw [hco, hinc] at hchg
    refine second_pass_no_match ck st.includeList st.coordinators
      { devConfs := (run1Admit ck st devices k0).1 :: tail
        coordinators := st.coordinators
        ns := (run1Admit ck st devices k0).2.2
        updatedConf := false }
      devices hdev rfl hchg ?_
    rw [run1Merge] at hc2
    rw [hc2]
    exact hk
  -- the second merge pass is the identity
  have hmg2 : run1Merge ck ((run_discovery ck st devices).st) devices k1 tail1
      = { devConfs := k1 :: tail1
          coordinators := (run_discovery ck st devices).st.coordinators
          ns := { notifed := (run1Merge ck st devices k0 tail).ns.notifed, notifs := [] }
          updatedConf := false } := by
    simp only [run1Merge, hadm2]
    exact mergeGo_silent hnomatch
  obtain ⟨-, hrel2, hnot2⟩ :=
    run_discovery_proj ck ((run_discovery ck st devices).st) devices k1 tail1 hc2'
  refine ⟨?_, ?_⟩
  · rw [hnot2, hmg2]
  · rw [hrel2, hadm2]


/-- Witness for the amended C4 at a concrete non-empty registry. -/
theorem claim_c4_second_run_silent_witness :
    stC9.devConfs ≠ []
    ∧ ([devSN3].map LanDevice.serial_number).Nodup
    ∧ (run_discovery sampleChecks
        (run_discovery sampleChecks stC9 [devSN3]).st [devSN3]).notifs = []
    ∧ (run_discovery sampleChecks
        (run_discovery sampleChecks stC9 [devSN3]).st [devSN3]).needReload = false :=
  ⟨by decide, by decide,
    (claim_c4_second_run_silent sampleChecks stC9 [devSN3] (by decide) (by decide)).1,
    (claim_c4_second_run_silent sampleChecks stC9 [devSN3] (by decide) (by decide)).2⟩

end MideaLan
